import Mathlib

/-!
Verification of the PaperDAW notation-to-audio core (src/PaperDAW.py).

The Python source is shallowly embedded as follows.

* Exact arithmetic: Python's float computations on tempo-derived durations
  are modelled over `ℚ` (the formulas `60 / tempo / 4`, `int(...)` as
  `Nat.floor`, etc. are exact rational expressions in the source).
* Sample buffers are `List ℚ` where the claims talk about per-sample
  contents (the mixer), and are abstracted to their lengths and write
  windows where the claims only talk about shapes (the percussive
  synthesizers, whose sample contents come from `np.random.normal` /
  transcendental `sin` and are never inspected by any claim).
* A numpy statement `full_sequence[a:b] += sound` raises a broadcast
  `ValueError` exactly when the (clamped) slice `[a:b]` is shorter than
  `sound`; the synthesizer models return `Except.error "ValueError"` in
  precisely that situation, mirroring the fatal error of the source.
* Frequencies and gains (`2 ** x`, `(v/50) ** 2.4`, `log10`) are modelled
  over `ℝ` with `Real.rpow` / `Real.logb`.
-/

namespace PaperDAW

/-! ## Timing base (shared by all synthesizers)

Source: `beat_duration = 60 / tempo / 4` and
`np.zeros(int(44100 * beat_duration * len(symbols)))`,
`start = int(i * 44100 * beat_duration)`,
`end = start + int(44100 * beat_duration)`. -/

/-- Source `beat_duration = 60 / tempo / 4` (seconds per sixteenth-note slot). -/
def beatDuration (tempo : ℕ) : ℚ := 60 / tempo / 4

/-- Length of the allocated buffer: `int(44100 * beat_duration * len(symbols))`. -/
def bufferLen (tempo n : ℕ) : ℕ := ⌊(44100 : ℚ) * beatDuration tempo * n⌋₊

/-- Slot start offset: `start = int(i * 44100 * beat_duration)`. -/
def slotStart (tempo i : ℕ) : ℕ := ⌊(i : ℚ) * 44100 * beatDuration tempo⌋₊

/-- Slot write-window width used by the drum track:
`end - start` where `end = start + int(44100 * beat_duration)`. -/
def slotWidth (tempo : ℕ) : ℕ := ⌊(44100 : ℚ) * beatDuration tempo⌋₊

/-! ## Tokenizer

Source (`Track.play` and every `create_audio_data`):
`symbols = notation.replace('|', '').split()` — remove every bar
character, then split on whitespace runs, producing no empty tokens.
Modelled at character level (a Python `str` is its character sequence). -/

/-- Source `text.replace('|', '')`: drop every bar character. -/
def stripBars (text : String) : String := String.mk (text.data.filter (fun c => c ≠ '|'))

/-- Whitespace split of a character list, accumulator style; mirrors
Python `str.split()` with no separator argument: runs of whitespace
separate tokens and no empty token is produced. -/
def splitWsAux : List Char → List Char → List (List Char)
  | [], acc => if acc = [] then [] else [acc.reverse]
  | c :: rest, acc =>
      if c.isWhitespace then
        (if acc = [] then splitWsAux rest [] else acc.reverse :: splitWsAux rest [])
      else splitWsAux rest (c :: acc)

/-- Source `notation.replace('|', '').split()`. -/
def tokenize (text : String) : List String :=
  (splitWsAux (stripBars text).data []).map String.mk

example : tokenize ("K B . . S") = ["K", "B", ".", ".", "S"] := by decide
example : tokenize ("K B|. . S") = ["K", "B.", ".", "S"] := by decide
example : tokenize ("") = [] := by decide

/-! ## Percussive synthesizers (Metronome, Drum, Hat), shape level

The per-slot loop of each `create_audio_data` writes a one-shot sound
into the buffer.  The sound arrays themselves are random noise or sine
bursts whose only claim-relevant attribute is their length, so a
synthesizer is modelled by the buffer length it allocates together with
the check that every `full_sequence[a:b] += sound` statement has a slice
at least as long as `sound` (otherwise numpy raises `ValueError`). -/

/-- One-shot lengths. Metronome: `t = np.linspace(0, 0.05, int(44100*0.05), False)`
so both `click` and `accent` have `int(44100*0.05)` samples. -/
def clickLen : ℕ := ⌊(44100 : ℚ) * (5 / 100)⌋₊

/-- Hat: `closed_hat` has `int(44100*0.05)` samples. -/
def hatClosedLen : ℕ := ⌊(44100 : ℚ) * (5 / 100)⌋₊

/-- Hat: `open_hat` has `int(44100*0.1)` samples. -/
def hatOpenLen : ℕ := ⌊(44100 : ℚ) * (1 / 10)⌋₊

/-- Hat: `pedal_hat` has `int(44100*0.075)` samples. -/
def hatPedalLen : ℕ := ⌊(44100 : ℚ) * (75 / 1000)⌋₊

/-- Length of the one-shot a metronome symbol triggers (`@` click, `$` accent),
`none` for silent symbols. -/
def metronomeSoundLen (s : String) : Option ℕ :=
  if s = "@" then some clickLen else if s = "$" then some clickLen else none

/-- Length of the one-shot a hat symbol triggers (`H`/`O`/`P`), `none` otherwise. -/
def hatSoundLen (s : String) : Option ℕ :=
  if s = "H" then some hatClosedLen
  else if s = "O" then some hatOpenLen
  else if s = "P" then some hatPedalLen
  else none

/-- Walk the enumerated symbol loop of a percussive `create_audio_data`:
for the `i`-th symbol triggering a one-shot of length `len`, the source
executes `full_sequence[start:start+len] += sound` with
`start = int(i * 44100 * beat_duration)`; that statement succeeds iff
`start + len ≤ bufLen`. Returns `true` iff every write fits. -/
def writesOk (tempo bufLen : ℕ) (lenOf : String → Option ℕ) : List String → ℕ → Bool
  | [], _ => true
  | s :: rest, i =>
      (match lenOf s with
        | none => true
        | some len => decide (slotStart tempo i + len ≤ bufLen)) &&
      writesOk tempo bufLen lenOf rest (i + 1)

/-- Model of `MetronomeTrack.create_audio_data`, shape level: allocates
`int(44100 * beat_duration * len(symbols))` zeros and adds a click at
`int(i * 44100 * beat_duration)` for every `@`/`$`, without truncating
the click to the slot width. Returns the buffer length, or numpy's
broadcast `ValueError` when a click does not fit in the remaining buffer. -/
def metronomeCreateAudioData (tempo : ℕ) (symbols : List String) : Except String ℕ :=
  let bufLen := bufferLen tempo symbols.length
  if writesOk tempo bufLen metronomeSoundLen symbols 0 then .ok bufLen
  else .error "ValueError"

/-- Model of `HatTrack.create_audio_data`, shape level: adds each hat one-shot at its
slot start offset without truncation to slot width. -/
def hatCreateAudioData (tempo : ℕ) (symbols : List String) : Except String ℕ :=
  let bufLen := bufferLen tempo symbols.length
  if writesOk tempo bufLen hatSoundLen symbols 0 then .ok bufLen
  else .error "ValueError"

/-- Source `DrumTrack.fit_sound(sound, start, end)`: truncate to, or zero-pad up to,
the window width `end - start`. -/
def fitSound (sound : List ℚ) (start stop : ℕ) : List ℚ :=
  if sound.length > stop - start then sound.take (stop - start)
  else sound ++ List.replicate ((stop - start) - sound.length) 0

/-- Model of `DrumTrack.create_audio_data`, shape level: each `K`/`B`/`S`/`C` slot
executes `full_sequence[start:end] += fit_sound(sound, start, end)` with
`end = start + int(44100 * beat_duration)`, so the written segment always
has exactly the window width `end - start = slotWidth`. -/
def drumCreateAudioData (tempo : ℕ) (symbols : List String) : Except String ℕ :=
  let bufLen := bufferLen tempo symbols.length
  if writesOk tempo bufLen
      (fun s => if s = "K" ∨ s = "B" ∨ s = "S" ∨ s = "C" then some (slotWidth tempo) else none)
      symbols 0 then .ok bufLen
  else .error "ValueError"

/-! Evaluation lemmas: the rational-floor formulas reduce to natural
division, so concrete runs of the synthesizer models can be computed. -/

/-- Here `44100 * 60 / 4 = 661500` samples per slot per unit of `1/tempo`. -/
lemma bufferLen_eval (tempo n : ℕ) : bufferLen tempo n = 661500 * n / tempo := by
  unfold bufferLen beatDuration
  rcases eq_or_ne tempo 0 with h | h
  · subst h; simp
  · have hc : (44100 : ℚ) * (60 / (tempo : ℕ) / 4) * n
        = ((661500 * n : ℕ) : ℚ) / ((tempo : ℕ) : ℚ) := by
      have ht : ((tempo : ℕ) : ℚ) ≠ 0 := Nat.cast_ne_zero.mpr h
      push_cast
      field_simp
      ring
    rw [hc, Nat.floor_div_nat, Nat.floor_natCast]

lemma slotStart_eval (tempo i : ℕ) : slotStart tempo i = 661500 * i / tempo := by
  unfold slotStart beatDuration
  rcases eq_or_ne tempo 0 with h | h
  · subst h; simp
  · have hc : ((i : ℕ) : ℚ) * 44100 * (60 / (tempo : ℕ) / 4)
        = ((661500 * i : ℕ) : ℚ) / ((tempo : ℕ) : ℚ) := by
      have ht : ((tempo : ℕ) : ℚ) ≠ 0 := Nat.cast_ne_zero.mpr h
      push_cast
      field_simp
      ring
    rw [hc, Nat.floor_div_nat, Nat.floor_natCast]

lemma slotWidth_eval (tempo : ℕ) : slotWidth tempo = 661500 / tempo := by
  unfold slotWidth beatDuration
  rcases eq_or_ne tempo 0 with h | h
  · subst h; simp
  · have hc : (44100 : ℚ) * (60 / (tempo : ℕ) / 4)
        = ((661500 : ℕ) : ℚ) / ((tempo : ℕ) : ℚ) := by
      have ht : ((tempo : ℕ) : ℚ) ≠ 0 := Nat.cast_ne_zero.mpr h
      push_cast
      field_simp
      ring
    rw [hc, Nat.floor_div_nat, Nat.floor_natCast]

lemma clickLen_eval : clickLen = 2205 := by
  unfold clickLen; norm_num

lemma hatClosedLen_eval : hatClosedLen = 2205 := by
  unfold hatClosedLen; norm_num

lemma hatOpenLen_eval : hatOpenLen = 4410 := by
  unfold hatOpenLen; norm_num

lemma hatPedalLen_eval : hatPedalLen = 3307 := by
  unfold hatPedalLen
  rw [Nat.floor_eq_iff (by positivity)]
  norm_num

example : bufferLen 480 1 = 1378 := by rw [bufferLen_eval]
example : hatCreateAudioData 480 ["H"] = .error "ValueError" := by
  simp [hatCreateAudioData, writesOk, hatSoundLen, bufferLen_eval, slotStart_eval,
    hatClosedLen_eval]
example : metronomeCreateAudioData 480 ["@"] = .error "ValueError" := by
  simp [metronomeCreateAudioData, writesOk, metronomeSoundLen, bufferLen_eval,
    slotStart_eval, clickLen_eval]
example : hatCreateAudioData 120 ["H", "O"] = .ok 11025 := by
  simp [hatCreateAudioData, writesOk, hatSoundLen, bufferLen_eval, slotStart_eval,
    hatClosedLen_eval, hatOpenLen_eval]
example : drumCreateAudioData 480 ["K"] = .ok 1378 := by
  simp [drumCreateAudioData, writesOk, bufferLen_eval, slotStart_eval, slotWidth_eval]

/-! ## Window arithmetic -/

lemma beatDuration_nonneg (tempo : ℕ) : 0 ≤ beatDuration tempo := by
  unfold beatDuration; positivity

/-- Superadditivity of the natural floor on nonnegative rationals. -/
lemma natFloor_add_le {a b : ℚ} (ha : 0 ≤ a) (hb : 0 ≤ b) :
    ⌊a⌋₊ + ⌊b⌋₊ ≤ ⌊a + b⌋₊ := by
  refine Nat.le_floor ?_
  push_cast
  exact add_le_add (Nat.floor_le ha) (Nat.floor_le hb)

/-- The `i`-th drum slot window `[start, start + int(44100*beat_duration))`
stays inside the allocated buffer whenever `i < n`. -/
lemma slot_window_le_bufferLen (tempo : ℕ) {i n : ℕ} (hin : i < n) :
    slotStart tempo i + slotWidth tempo ≤ bufferLen tempo n := by
  have hbd : 0 ≤ beatDuration tempo := beatDuration_nonneg tempo
  have h1 : slotStart tempo i + slotWidth tempo
      ≤ ⌊(i : ℚ) * 44100 * beatDuration tempo + 44100 * beatDuration tempo⌋₊ := by
    refine natFloor_add_le (by positivity) (by positivity)
  have h2 : (i : ℚ) * 44100 * beatDuration tempo + 44100 * beatDuration tempo
      = 44100 * beatDuration tempo * ((i : ℚ) + 1) := by ring
  have h3 : (44100 : ℚ) * beatDuration tempo * ((i : ℚ) + 1)
      ≤ 44100 * beatDuration tempo * (n : ℚ) := by
    have : ((i : ℚ) + 1) ≤ (n : ℚ) := by exact_mod_cast hin
    have h44 : 0 ≤ (44100 : ℚ) * beatDuration tempo := by positivity
    exact mul_le_mul_of_nonneg_left this h44
  calc slotStart tempo i + slotWidth tempo
      ≤ ⌊(i : ℚ) * 44100 * beatDuration tempo + 44100 * beatDuration tempo⌋₊ := h1
    _ = ⌊(44100 : ℚ) * beatDuration tempo * ((i : ℚ) + 1)⌋₊ := by rw [h2]
    _ ≤ ⌊(44100 : ℚ) * beatDuration tempo * (n : ℚ)⌋₊ := Nat.floor_le_floor h3
    _ = bufferLen tempo n := rfl

/-- If every triggered write fits, the loop check succeeds: the check over
`symbols` starting at slot index `i0` holds as soon as each slot whose
symbol triggers a sound of length `len` satisfies `start + len ≤ bufLen`. -/
lemma writesOk_eq_true (tempo bufLen : ℕ) (lenOf : String → Option ℕ) :
    ∀ (symbols : List String) (i0 : ℕ),
      (∀ j len, j < symbols.length →
        lenOf (symbols.getD j "") = some len →
        slotStart tempo (i0 + j) + len ≤ bufLen) →
      writesOk tempo bufLen lenOf symbols i0 = true := by
  intro symbols
  induction symbols with
  | nil => intro i0 _; rfl
  | cons s rest ih =>
      intro i0 h
      unfold writesOk
      rw [Bool.and_eq_true]
      constructor
      · cases hs : lenOf s with
        | none => simp
        | some len =>
            have := h 0 len (Nat.succ_pos _) (by simpa using hs)
            simpa using this
      · refine ih (i0 + 1) ?_
        intro j len hj hlen
        have := h (j + 1) len (by simpa using Nat.succ_lt_succ hj) (by simpa using hlen)
        simpa [Nat.add_assoc, Nat.add_comm 1 j] using this

/-- The drum loop never overruns: every window has width `slotWidth` and
ends inside the buffer, so `DrumTrack.create_audio_data` always returns
its allocated buffer. -/
lemma drumCreateAudioData_ok (tempo : ℕ) (symbols : List String) :
    drumCreateAudioData tempo symbols = .ok (bufferLen tempo symbols.length) := by
  unfold drumCreateAudioData
  have hw : writesOk tempo (bufferLen tempo symbols.length)
      (fun s => if s = "K" ∨ s = "B" ∨ s = "S" ∨ s = "C"
        then some (slotWidth tempo) else none) symbols 0 = true := by
    apply writesOk_eq_true
    intro j len hj hlen
    have hwidth : len = slotWidth tempo := by
      by_cases hker : symbols.getD j "" = "K" ∨ symbols.getD j "" = "B" ∨
          symbols.getD j "" = "S" ∨ symbols.getD j "" = "C"
      · rw [if_pos hker] at hlen; exact (Option.some_inj.mp hlen).symm
      · rw [if_neg hker] at hlen; cases hlen
    subst hwidth
    simpa using slot_window_le_bufferLen tempo hj
  simp [hw]

/-- A successful percussive run returns exactly the allocated buffer length. -/
lemma writes_run_ok_len {tempo : ℕ} {symbols : List String}
    {lenOf : String → Option ℕ} {L : ℕ}
    (h : (if writesOk tempo (bufferLen tempo symbols.length) lenOf symbols 0
        then Except.ok (bufferLen tempo symbols.length)
        else Except.error "ValueError") = Except.ok L) :
    L = bufferLen tempo symbols.length := by
  by_cases hw : writesOk tempo (bufferLen tempo symbols.length) lenOf symbols 0
  · rw [if_pos hw] at h
    injection h with h'
    exact h'.symm
  · rw [if_neg hw] at h; cases h

/-- The allocated length `int(44100*60/T/4*N)` is within one sample of
`round(44100*60/T/4*N)`. -/
lemma bufferLen_near_round (tempo n : ℕ) :
    round ((44100 : ℚ) * beatDuration tempo * n) - 1 ≤ (bufferLen tempo n : ℤ) ∧
    (bufferLen tempo n : ℤ) ≤ round ((44100 : ℚ) * beatDuration tempo * n) := by
  set q : ℚ := (44100 : ℚ) * beatDuration tempo * n with hq
  have hq0 : 0 ≤ q := by
    rw [hq]; have := beatDuration_nonneg tempo; positivity
  have hfl : (bufferLen tempo n : ℤ) = ⌊q⌋ := Int.natCast_floor_eq_floor hq0
  have hround : round q = ⌊q + 1 / 2⌋ := round_eq q
  constructor
  · rw [hfl, hround]
    have : ⌊q + 1 / 2⌋ ≤ ⌊q + 1⌋ := Int.floor_le_floor (by linarith)
    have h1 : ⌊q + (1 : ℚ)⌋ = ⌊q⌋ + 1 := by
      exact_mod_cast Int.floor_add_int q 1
    omega
  · rw [hfl, hround]
    exact Int.floor_le_floor (by linarith)

/-- The function `fit_sound` always returns a segment of exactly the window width. -/
lemma fitSound_length (sound : List ℚ) (a b : ℕ) :
    (fitSound sound a b).length = b - a := by
  unfold fitSound
  by_cases h : sound.length > b - a
  · rw [if_pos h]
    simp only [List.length_take]
    omega
  · rw [if_neg h]
    simp only [List.length_append, List.length_replicate]
    omega

/-! ## Claim theorems: buffer shapes -/

/-- Claim C9: in Drum synthesis, for every tempo in `[5, 480]`, every token
sequence length `n` and every slot index `i < n`, the write window
`[int(i*44100*beat_duration), int(i*44100*beat_duration) + int(44100*beat_duration))`
lies entirely inside the allocated buffer of length
`int(44100*beat_duration*n)`, and `fit_sound` returns a segment of exactly
the window's length, so every drum one-shot write is in bounds. -/
theorem c9_drum_writes_in_bounds (tempo n i : ℕ) (sound : List ℚ)
    (_h5 : 5 ≤ tempo) (_h480 : tempo ≤ 480) (hin : i < n) :
    slotStart tempo i + slotWidth tempo ≤ bufferLen tempo n ∧
    (fitSound sound (slotStart tempo i)
        (slotStart tempo i + slotWidth tempo)).length = slotWidth tempo := by
  refine ⟨slot_window_le_bufferLen tempo hin, ?_⟩
  rw [fitSound_length]
  omega

/-- Witness for C9 at tempo 120, two slots, first slot, an empty sound. -/
theorem c9_drum_writes_in_bounds_witness :
    slotStart 120 0 + slotWidth 120 ≤ bufferLen 120 2 ∧
    (fitSound [] (slotStart 120 0)
        (slotStart 120 0 + slotWidth 120)).length = slotWidth 120 :=
  c9_drum_writes_in_bounds 120 2 0 [] (by norm_num) (by norm_num) (by norm_num)

/-- Claim C2, counterexample to the claim as stated: at tempo 480 the
Metronome synthesizer does not return any buffer for the one-token sequence
`["@"]` — the 2205-sample click does not fit into the 1378-sample buffer and
the numpy add raises a broadcast `ValueError`. -/
theorem c2_buffer_length_counterexample :
    metronomeCreateAudioData 480 ["@"] = Except.error "ValueError" ∧
    ∀ L : ℕ, metronomeCreateAudioData 480 ["@"] ≠ Except.ok L := by
  have h : metronomeCreateAudioData 480 ["@"] = Except.error "ValueError" := by
    simp [metronomeCreateAudioData, writesOk, metronomeSoundLen, bufferLen_eval,
      slotStart_eval, clickLen_eval]
  exact ⟨h, fun L hL => by rw [h] at hL; cases hL⟩

/-- Claim C2 (amended): for any tempo in `[5, 480]` and any non-empty token
sequence, each of Drum/Hat/Metronome allocates a buffer of
`int(44100 * 60/T/4 * N)` samples, which is within one sample of
`round(44100 * 60/T/4 * N)`; Drum always returns it, and Hat and Metronome
return exactly that length whenever synthesis completes without error. -/
theorem c2_buffer_length (tempo : ℕ) (symbols : List String)
    (_h5 : 5 ≤ tempo) (_h480 : tempo ≤ 480) (_hne : symbols ≠ []) :
    drumCreateAudioData tempo symbols = .ok (bufferLen tempo symbols.length) ∧
    (∀ L, hatCreateAudioData tempo symbols = .ok L →
      L = bufferLen tempo symbols.length) ∧
    (∀ L, metronomeCreateAudioData tempo symbols = .ok L →
      L = bufferLen tempo symbols.length) ∧
    round ((44100 : ℚ) * beatDuration tempo * symbols.length) - 1
      ≤ (bufferLen tempo symbols.length : ℤ) ∧
    (bufferLen tempo symbols.length : ℤ)
      ≤ round ((44100 : ℚ) * beatDuration tempo * symbols.length) := by
  refine ⟨drumCreateAudioData_ok tempo symbols, ?_, ?_, ?_, ?_⟩
  · intro L h
    simp only [hatCreateAudioData] at h
    exact writes_run_ok_len h
  · intro L h
    simp only [metronomeCreateAudioData] at h
    exact writes_run_ok_len h
  · exact (bufferLen_near_round tempo symbols.length).1
  · exact (bufferLen_near_round tempo symbols.length).2

/-- Witness for C2 at tempo 120 and the two-token sequence `["K", "S"]`. -/
theorem c2_buffer_length_witness :
    drumCreateAudioData 120 ["K", "S"] = .ok (bufferLen 120 2) ∧
    round ((44100 : ℚ) * beatDuration 120 * (2 : ℕ)) - 1 ≤ (bufferLen 120 2 : ℤ) ∧
    (bufferLen 120 2 : ℤ) ≤ round ((44100 : ℚ) * beatDuration 120 * (2 : ℕ)) := by
  have h := c2_buffer_length 120 ["K", "S"] (by norm_num) (by norm_num) (by simp)
  exact ⟨h.1, h.2.2.2.1, h.2.2.2.2⟩

/-- Claim C1: the Hat synthesizer adds each one-shot at the slot start offset
without truncating it to slot width; but when the one-shot extends past the
end of the allocated buffer the numpy add is a shape-mismatch (broadcast)
error. At tempo 480 the single-token sequence `["H"]` allocates
`int(44100*60/480/4)` = 1378 samples while the closed-hat one-shot has
`int(44100*0.05)` = 2205 samples, so `create_audio_data` raises instead of
completing — the code, not the claim, is at fault (`MelodyTrack` clamps
exactly this overrun; `HatTrack`/`MetronomeTrack` do not). -/
theorem c1_hat_shape_mismatch :
    hatCreateAudioData 480 ["H"] = Except.error "ValueError" ∧
    bufferLen 480 1 = 1378 ∧ hatClosedLen = 2205 := by
  refine ⟨?_, ?_, hatClosedLen_eval⟩
  · simp [hatCreateAudioData, writesOk, hatSoundLen, bufferLen_eval, slotStart_eval,
      hatClosedLen_eval]
  · rw [bufferLen_eval]

/-! ## Mixer (`AudioMixer`)

`self.tracks` is a name-keyed mapping of PCM buffers, modelled as an
association list (Python dict preserves insertion order).
`get_mixed_audio`:

    if not self.tracks: return np.zeros(0)
    max_length = max(len(audio) for audio in self.tracks.values())
    mixed_audio = np.zeros(max_length)
    for audio in self.tracks.values():
        mixed_audio[:len(audio)] += audio
    return mixed_audio
-/

/-- Source `mixed_audio[:len(audio)] += audio`: add `sound` into the prefix of
`acc`, leaving samples past `sound`'s length unchanged. -/
def addInto (acc sound : List ℚ) : List ℚ :=
  (List.range acc.length).map (fun i => acc.getD i 0 + sound.getD i 0)

/-- Source `max(len(audio) for audio in tracks.values())` (0 when empty). -/
def maxLen (tracks : List (String × List ℚ)) : ℕ :=
  tracks.foldl (fun m p => max m p.2.length) 0

/-- Model of `AudioMixer.get_mixed_audio`, value level. -/
def getMixed (tracks : List (String × List ℚ)) : List ℚ :=
  if tracks = [] then []
  else tracks.foldl (fun acc p => addInto acc p.2) (List.replicate (maxLen tracks) 0)

lemma addInto_length (acc sound : List ℚ) : (addInto acc sound).length = acc.length := by
  unfold addInto
  rw [List.length_map, List.length_range]

lemma addInto_getD (acc sound : List ℚ) {i : ℕ} (h : i < acc.length) :
    (addInto acc sound).getD i 0 = acc.getD i 0 + sound.getD i 0 := by
  unfold addInto
  rw [List.getD_eq_getElem?_getD, List.getElem?_map, List.getElem?_range h]
  rfl

lemma mixFold_length (tracks : List (String × List ℚ)) (acc : List ℚ) :
    (tracks.foldl (fun acc p => addInto acc p.2) acc).length = acc.length := by
  induction tracks generalizing acc with
  | nil => rfl
  | cons t rest ih => rw [List.foldl_cons, ih, addInto_length]

/-- Each sample of the fold is the starting sample plus the sum of the
corresponding samples of all folded buffers (missing samples read as 0). -/
lemma mixFold_getD (tracks : List (String × List ℚ)) (acc : List ℚ) {i : ℕ}
    (h : i < acc.length) :
    (tracks.foldl (fun acc p => addInto acc p.2) acc).getD i 0
      = acc.getD i 0 + (tracks.map (fun p => p.2.getD i 0)).sum := by
  induction tracks generalizing acc with
  | nil => simp
  | cons t rest ih =>
      rw [List.foldl_cons, ih _ (by rw [addInto_length]; exact h),
        addInto_getD _ _ h]
      simp [add_assoc]

lemma getMixed_nil : getMixed [] = [] := rfl

lemma getMixed_length (tracks : List (String × List ℚ)) (hne : tracks ≠ []) :
    (getMixed tracks).length = maxLen tracks := by
  unfold getMixed
  rw [if_neg hne, mixFold_length, List.length_replicate]

lemma getMixed_getD (tracks : List (String × List ℚ)) (hne : tracks ≠ [])
    {i : ℕ} (h : i < maxLen tracks) :
    (getMixed tracks).getD i 0 = (tracks.map (fun p => p.2.getD i 0)).sum := by
  unfold getMixed
  rw [if_neg hne, mixFold_getD _ _ (by rwa [List.length_replicate]),
    List.getD_eq_getElem?_getD, List.getElem?_replicate]
  simp [h]

/-- Claim C3: `get_mixed_audio` with no registered tracks returns an empty
buffer; otherwise it returns a buffer of the maximum registered length whose
sample `i` is the sum over all registered buffers of their sample `i`
(buffers shorter than the result contribute zero past their own length).
In particular, combining a 1000-sample and a 1500-sample buffer gives a
1500-sample result: elementwise sum on the first 1000 samples, the longer
buffer's tail on the last 500. -/
theorem c3_mixer_combine (tracks : List (String × List ℚ)) (n1 n2 : String)
    (a b : List ℚ) (ha : a.length = 1000) (hb : b.length = 1500) :
    getMixed [] = [] ∧
    (tracks ≠ [] → (getMixed tracks).length = maxLen tracks ∧
      ∀ i, i < maxLen tracks → (getMixed tracks).getD i 0
        = (tracks.map (fun p => p.2.getD i 0)).sum) ∧
    (getMixed [(n1, a), (n2, b)]).length = 1500 ∧
    (∀ i, i < 1000 → (getMixed [(n1, a), (n2, b)]).getD i 0
      = a.getD i 0 + b.getD i 0) ∧
    (∀ i, 1000 ≤ i → i < 1500 → (getMixed [(n1, a), (n2, b)]).getD i 0
      = b.getD i 0) := by
  have hml : maxLen [(n1, a), (n2, b)] = 1500 := by
    simp [maxLen, ha, hb]
  have hcons : ([(n1, a), (n2, b)] : List (String × List ℚ)) ≠ [] := by simp
  refine ⟨getMixed_nil, ?_, ?_, ?_, ?_⟩
  · intro hne
    exact ⟨getMixed_length tracks hne, fun i hi => getMixed_getD tracks hne hi⟩
  · rw [getMixed_length _ hcons, hml]
  · intro i hi
    rw [getMixed_getD _ hcons (by rw [hml]; omega)]
    simp
  · intro i hi1000 hi1500
    rw [getMixed_getD _ hcons (by rw [hml]; omega)]
    have hza : a.getD i 0 = 0 := List.getD_eq_default _ _ (by omega)
    simp [hza]
    rw [← List.getD_eq_getElem?_getD]
    exact hza

/-- Witness for C3 on two concrete buffers of lengths 1000 and 1500. -/
theorem c3_mixer_combine_witness :
    getMixed [] = [] ∧
    (getMixed [("Melody", List.replicate 1000 (1 : ℚ)),
        ("Bass", List.replicate 1500 (2 : ℚ))]).length = 1500 :=
  have h := c3_mixer_combine [] ("Melody") ("Bass")
    (List.replicate 1000 (1 : ℚ)) (List.replicate 1500 (2 : ℚ))
    (List.length_replicate 1000 1) (List.length_replicate 1500 2)
  ⟨h.1, h.2.2.1⟩

/-! ## Mixer, heap level (for the read-only/frame claim)

To state that `get_mixed_audio` mutates no stored buffer we model the
numpy arrays as slots in an explicit heap: `trackIds` maps each track
name to the heap id of its buffer (`self.tracks`), `next` is the next
fresh id.  `mixed_audio = np.zeros(max_length)` allocates the fresh id,
and each `mixed_audio[:len(audio)] += audio` is an in-place write to
that id only. -/

structure MixerHeapState where
  trackIds : List (String × ℕ)
  heap : ℕ → List ℚ
  next : ℕ

/-- In-place update of one heap slot. -/
def hWrite (h : ℕ → List ℚ) (i : ℕ) (v : List ℚ) : ℕ → List ℚ :=
  fun j => if j = i then v else h j

/-- The `for audio in self.tracks.values(): mixed_audio[:len(audio)] += audio`
loop: repeatedly overwrite the accumulator slot `mixId`. -/
def mixLoop (mixId : ℕ) : List ℕ → (ℕ → List ℚ) → (ℕ → List ℚ)
  | [], h => h
  | id :: rest, h => mixLoop mixId rest (hWrite h mixId (addInto (h mixId) (h id)))

/-- Source `max(len(audio) for audio in self.tracks.values())` over the heap. -/
def maxLenH (s : MixerHeapState) : ℕ :=
  s.trackIds.foldl (fun m p => max m (s.heap p.2).length) 0

/-- Model of `AudioMixer.get_mixed_audio`, heap level: allocate a fresh zero buffer
of the maximum length, add every registered buffer into it, and return its
id together with the post-state. -/
def getMixedH (s : MixerHeapState) : ℕ × MixerHeapState :=
  let mixId := s.next
  let h0 := hWrite s.heap mixId (List.replicate (maxLenH s) 0)
  let h1 := mixLoop mixId (s.trackIds.map (fun p => p.2)) h0
  (mixId, ⟨s.trackIds, h1, s.next + 1⟩)

lemma mixLoop_ne (mixId : ℕ) (ids : List ℕ) (h : ℕ → List ℚ) {j : ℕ}
    (hj : j ≠ mixId) : mixLoop mixId ids h j = h j := by
  induction ids generalizing h with
  | nil => rfl
  | cons id rest ih =>
      unfold mixLoop
      rw [ih]
      unfold hWrite
      rw [if_neg hj]

/-- Claim C10: `get_mixed_audio` is read-only on the mixer state — the
name-to-buffer mapping keeps exactly the same entries, every stored
buffer's samples are unchanged, and the summed result lives in a freshly
allocated buffer distinct from every stored one. -/
theorem c10_get_mixed_frame (s : MixerHeapState)
    (hwf : ∀ p ∈ s.trackIds, p.2 < s.next) :
    (getMixedH s).2.trackIds = s.trackIds ∧
    (∀ p ∈ s.trackIds, (getMixedH s).2.heap p.2 = s.heap p.2) ∧
    (getMixedH s).1 ∉ s.trackIds.map (fun p => p.2) := by
  refine ⟨rfl, ?_, ?_⟩
  · intro p hp
    have hne : p.2 ≠ s.next := Nat.ne_of_lt (hwf p hp)
    show mixLoop s.next (s.trackIds.map (fun p => p.2))
        (hWrite s.heap s.next (List.replicate (maxLenH s) 0)) p.2 = s.heap p.2
    rw [mixLoop_ne _ _ _ hne]
    unfold hWrite
    rw [if_neg hne]
  · intro hmem
    obtain ⟨p, hp, hpe⟩ := List.mem_map.mp hmem
    have := hwf p hp
    rw [hpe] at this
    exact absurd this (lt_irrefl _)

/-- Witness for C10 on a one-track heap. -/
theorem c10_get_mixed_frame_witness :
    (getMixedH ⟨[("Drum", 0)], fun j => if j = 0 then [(1 : ℚ)] else [], 1⟩).2.trackIds
      = [("Drum", 0)] ∧
    (getMixedH ⟨[("Drum", 0)], fun j => if j = 0 then [(1 : ℚ)] else [], 1⟩).1
      ∉ ([("Drum", 0)] : List (String × ℕ)).map (fun p => p.2) :=
  have h := c10_get_mixed_frame
    ⟨[("Drum", 0)], fun j => if j = 0 then [(1 : ℚ)] else [], 1⟩
    (by intro p hp; simp at hp; rw [hp]; exact Nat.zero_lt_one)
  ⟨h.1, h.2.2⟩

/-! ## Playback controller (`MainWindow.stop_all`, `Track.stop`)

State relevant to the stop path: the global-playing flag, the global
audio thread, each track's playback (symbol clock) and audio threads and
the metronome's beat counter, and the mixer's name-to-buffer mapping.

`Track.stop`: stop+join `playback_thread` and `audio_thread` if running,
`audio_mixer.remove_track(self.name)` (a no-op when the name is absent),
reset the display.  `MetronomeTrack.stop` additionally resets the beat
counter.  `MainWindow.stop_all`: clear the global flag, reset the
metronome beat counter, call every track's `stop`, stop+join the global
audio thread, `audio_mixer.tracks.clear()`. -/

structure TrackState where
  name : String
  isMetronome : Bool
  beatCount : ℕ
  playbackRunning : Bool
  audioRunning : Bool
deriving DecidableEq

structure DAWState where
  isPlayingGlobally : Bool
  globalAudioRunning : Bool
  tracks : List TrackState
  mixerTracks : List (String × List ℚ)

/-- Source `Track.stop` on the track's own state (thread flags, metronome beat reset). -/
def trackStop (t : TrackState) : TrackState :=
  { t with playbackRunning := false, audioRunning := false,
           beatCount := if t.isMetronome then 0 else t.beatCount }

/-- Source `audio_mixer.remove_track(name)`: delete the entry when present. -/
def mixerRemove (m : List (String × List ℚ)) (name : String) :
    List (String × List ℚ) :=
  m.filter (fun p => p.1 ≠ name)

/-- Source `MainWindow.stop_all`: clear the global flag, stop every track (which
also removes it from the mixer), stop the global audio thread, then clear
the whole mixer mapping (`audio_mixer.tracks.clear()`), which supersedes
the per-track removals. -/
def stopAll (s : DAWState) : DAWState :=
  let _afterTracks := s.tracks.foldl (fun m t => mixerRemove m t.name) s.mixerTracks
  { isPlayingGlobally := false
    globalAudioRunning := false
    tracks := s.tracks.map trackStop
    mixerTracks := [] }

/-- The controller's `Idle` state: nothing is playing. -/
def isIdle (s : DAWState) : Prop :=
  s.isPlayingGlobally = false ∧ s.globalAudioRunning = false ∧
  ∀ t ∈ s.tracks, t.playbackRunning = false ∧ t.audioRunning = false

lemma trackStop_idem (t : TrackState) : trackStop (trackStop t) = trackStop t := by
  unfold trackStop
  by_cases h : t.isMetronome <;> simp [h]

lemma stopAll_mixer_empty (s : DAWState) : (stopAll s).mixerTracks = [] := by
  unfold stopAll
  simp

/-- Claim C8: `stopAll` is idempotent — called twice from any state it leaves
the controller `Idle` both times, with an empty mixer and no error; and
`stop` with nothing running is a no-op: on a track whose threads are not
running (and whose beat counter is already reset) `Track.stop` changes
nothing, and removing an absent name leaves the mixer mapping unchanged. -/
theorem c8_stop_all_idempotent (s : DAWState) (m : List (String × List ℚ))
    (t : TrackState)
    (hpb : t.playbackRunning = false) (hau : t.audioRunning = false)
    (hbeat : t.isMetronome = true → t.beatCount = 0)
    (habsent : ∀ p ∈ m, p.1 ≠ t.name) :
    stopAll (stopAll s) = stopAll s ∧
    isIdle (stopAll s) ∧
    (stopAll s).mixerTracks = [] ∧
    trackStop t = t ∧
    mixerRemove m t.name = m := by
  refine ⟨?_, ?_, rfl, ?_, ?_⟩
  · unfold stopAll
    simp only [List.map_map]
    congr 1
    exact List.map_congr_left (fun a _ => trackStop_idem a)
  · refine ⟨rfl, rfl, ?_⟩
    intro t' ht'
    unfold stopAll at ht'
    simp only [List.mem_map] at ht'
    obtain ⟨a, _, rfl⟩ := ht'
    exact ⟨rfl, rfl⟩
  · obtain ⟨name, im, bc, pb, au⟩ := t
    simp only at hpb hau hbeat
    subst hpb
    subst hau
    unfold trackStop
    cases im with
    | false => simp
    | true => simp [hbeat rfl]
  · unfold mixerRemove
    rw [List.filter_eq_self]
    intro p hp
    simpa using habsent p hp

/-- Witness for C8 on a concrete playing state, idle track and one-entry mixer. -/
theorem c8_stop_all_idempotent_witness :
    stopAll (stopAll ⟨true, true, [⟨"Metronome", true, 3, true, true⟩],
        [("X", [(1 : ℚ)])]⟩)
      = stopAll ⟨true, true, [⟨"Metronome", true, 3, true, true⟩],
        [("X", [(1 : ℚ)])]⟩ ∧
    (stopAll ⟨true, true, [⟨"Metronome", true, 3, true, true⟩],
        [("X", [(1 : ℚ)])]⟩).mixerTracks = [] ∧
    trackStop ⟨"Melody", false, 0, false, false⟩
      = ⟨"Melody", false, 0, false, false⟩ ∧
    mixerRemove [("Other", ([] : List ℚ))]
        (TrackState.name ⟨"Melody", false, 0, false, false⟩)
      = [("Other", ([] : List ℚ))] :=
  have h := c8_stop_all_idempotent
    ⟨true, true, [⟨"Metronome", true, 3, true, true⟩], [("X", [(1 : ℚ)])]⟩
    [("Other", ([] : List ℚ))] ⟨"Melody", false, 0, false, false⟩
    rfl rfl (fun _ => rfl)
    (by intro p hp; simp at hp; rw [hp]; decide)
  ⟨h.1, h.2.2.1, h.2.2.2.1, h.2.2.2.2⟩

/-! ## Melody/Bass sustain fold and pitch parsing (`MelodyTrack`)

`MelodyTrack.create_audio_data` walks the token list with
`current_note : Option` and `current_duration : ℕ`; a flush at index `i`
renders the held note at start slot `i - current_duration` with duration
`current_duration` slots (`start = int((i - current_duration) * 44100 *
beat_duration)`), the final flush uses `len(symbols)` in place of `i`.
The fold below returns the flushed note events in order; rendering each
event as a sine tone of the parsed frequency is handled by
`note_to_freq`/`pitchFreq` below. -/

structure NoteEvent where
  note : String
  startSlot : ℕ
  durSlots : ℕ
deriving DecidableEq

/-- The sustain-folding loop of `MelodyTrack.create_audio_data`:
`i` is the index of the next symbol, `cur`/`dur` are `current_note` /
`current_duration`. -/
def melodyEventsAux : List String → ℕ → Option String → ℕ → List NoteEvent
  | [], i, cur, dur =>
      match cur with
      | some n => [⟨n, i - dur, dur⟩]
      | none => []
  | s :: rest, i, cur, dur =>
      if s ≠ "-" ∧ s ≠ "." then
        (match cur with
          | some n => [⟨n, i - dur, dur⟩]
          | none => []) ++ melodyEventsAux rest (i + 1) (some s) 1
      else if s = "-" then
        melodyEventsAux rest (i + 1) cur (dur + 1)
      else
        match cur with
        | some n => ⟨n, i - dur, dur⟩ :: melodyEventsAux rest (i + 1) none 0
        | none => melodyEventsAux rest (i + 1) none dur

/-- The note events flushed by one run of the melody loop. -/
def melodyEvents (symbols : List String) : List NoteEvent :=
  melodyEventsAux symbols 0 none 0

/-- Result of `MelodyTrack.note_to_freq`'s name lookup: either a recognized
(semitone, octave) pitch or the printed-diagnostic fallback to 440 Hz. -/
inductive PitchResult where
  | invalidFallback
  | pitch (semitone : ℕ) (octave : ℕ)
deriving DecidableEq

deriving instance DecidableEq for Except

/-- Source `notes` mapping from `note_to_freq`: C=0, C#=1, ..., B=11. -/
def noteSemitones : List (String × ℕ) :=
  [("C", 0), ("C#", 1), ("D", 2), ("D#", 3), ("E", 4), ("F", 5), ("F#", 6),
   ("G", 7), ("G#", 8), ("A", 9), ("A#", 10), ("B", 11)]

/-- Model of `MelodyTrack.note_to_freq`, control flow. The source evaluates
`note[-2]` before anything else, which raises `IndexError` on strings
shorter than 2 characters; both branches of `if note[-2] == '#'` are
identical and compute `octave = int(note[-1])` (raising `ValueError` when
the last character is not a digit) and `note_name = note[:-1]`; an
unrecognized `note_name` prints a diagnostic and returns the 440 Hz
fallback. -/
def parseNote (note : String) : Except String PitchResult :=
  let cs := note.data
  if cs.length < 2 then .error "IndexError"
  else
    match cs.getLast? with
    | none => .error "IndexError"
    | some c =>
        if c.isDigit then
          let octave := c.toNat - 48
          let name := String.mk cs.dropLast
          match noteSemitones.lookup name with
          | some s => .ok (.pitch s octave)
          | none => .ok .invalidFallback
        else .error "ValueError"

/-- Source `440 * (2 ** ((semitones - 9) / 12 + (octave - 4)))`, or the 440 Hz
fallback. -/
noncomputable def pitchFreq : PitchResult → ℝ
  | .invalidFallback => 440
  | .pitch s o => 440 * (2 : ℝ) ^ (((s : ℝ) - 9) / 12 + ((o : ℝ) - 4))

/-- Model of `MelodyTrack.note_to_freq`: parse, then map to a frequency. -/
noncomputable def noteToFreq (note : String) : Except String ℝ :=
  (parseNote note).map pitchFreq

/-! Step lemmas for the melody loop. -/

lemma melodyAux_dash (rest : List String) (i d : ℕ) (cur : Option String) :
    melodyEventsAux ("-" :: rest) i cur d
      = melodyEventsAux rest (i + 1) cur (d + 1) := by
  conv_lhs => unfold melodyEventsAux
  rw [if_neg (by simp), if_pos rfl]

lemma melodyAux_pitch (s : String) (hs1 : s ≠ "-") (hs2 : s ≠ ".")
    (rest : List String) (i d : ℕ) (cur : Option String) :
    melodyEventsAux (s :: rest) i cur d
      = (match cur with
          | some n => [⟨n, i - d, d⟩]
          | none => []) ++ melodyEventsAux rest (i + 1) (some s) 1 := by
  conv_lhs => unfold melodyEventsAux
  rw [if_pos ⟨hs1, hs2⟩]

lemma melodyAux_dot (rest : List String) (i d : ℕ) (p : String) :
    melodyEventsAux ("." :: rest) i (some p) d
      = ⟨p, i - d, d⟩ :: melodyEventsAux rest (i + 1) none 0 := by
  conv_lhs => unfold melodyEventsAux
  rw [if_neg (by simp), if_neg (by simp)]

/-- A run of `k` sustains ending in a rest flushes the held note once,
with `k` extra slots of duration. -/
lemma melodyAux_replicate_dot (k : ℕ) :
    ∀ (i d : ℕ) (p : String),
      melodyEventsAux (List.replicate k "-" ++ ["."]) i (some p) d
        = [⟨p, i - d, d + k⟩] := by
  induction k with
  | zero =>
      intro i d p
      rw [List.replicate_zero, List.nil_append, melodyAux_dot]
      rfl
  | succ k ih =>
      intro i d p
      rw [List.replicate_succ, List.cons_append, melodyAux_dash, ih]
      have h1 : i + 1 - (d + 1) = i - d := by omega
      have h2 : d + 1 + k = d + (k + 1) := by omega
      rw [h1, h2]

/-- A run of `k` sustains ending at the end of the sequence flushes the
held note once via the final-flush branch. -/
lemma melodyAux_replicate_end (k : ℕ) :
    ∀ (i d : ℕ) (p : String),
      melodyEventsAux (List.replicate k "-") i (some p) d
        = [⟨p, i - d, d + k⟩] := by
  induction k with
  | zero =>
      intro i d p
      rfl
  | succ k ih =>
      intro i d p
      rw [List.replicate_succ, melodyAux_dash, ih]
      have h1 : i + 1 - (d + 1) = i - d := by omega
      have h2 : d + 1 + k = d + (k + 1) := by omega
      rw [h1, h2]

/-- Claim C4: the sustain fold of `"C4 - - ."` yields exactly one note
event — pitch `C4`, start slot 0, duration 3 slots — whose rendered sine
frequency is within 0.1% of 261.63 Hz; and in general a pitch token at
slot `i` followed by `k` sustains and terminated by a rest or by the end
of the sequence yields one note of duration `k + 1` slots starting at
slot `i`. -/
theorem c4_melody_sustain_fold (p : String) (k i : ℕ)
    (hp1 : p ≠ "-") (hp2 : p ≠ ".") :
    melodyEvents (tokenize ("C4 - - .")) = [⟨"C4", 0, 3⟩] ∧
    noteToFreq ("C4") = .ok (pitchFreq (.pitch 0 4)) ∧
    |pitchFreq (.pitch 0 4) - 261.63| ≤ (0.1 / 100) * 261.63 ∧
    melodyEventsAux (p :: (List.replicate k "-" ++ ["."])) i none 0
      = [⟨p, i, k + 1⟩] ∧
    melodyEventsAux (p :: List.replicate k "-") i none 0 = [⟨p, i, k + 1⟩] := by
  have hgen1 : ∀ (q : String) (m j : ℕ), q ≠ "-" → q ≠ "." →
      melodyEventsAux (q :: (List.replicate m "-" ++ ["."])) j none 0
        = [⟨q, j, m + 1⟩] := by
    intro q m j hq1 hq2
    rw [melodyAux_pitch q hq1 hq2, melodyAux_replicate_dot]
    have h1 : j + 1 - 1 = j := by omega
    have h2 : 1 + m = m + 1 := by omega
    rw [h1, h2]
    rfl
  have hgen2 : ∀ (q : String) (m j : ℕ), q ≠ "-" → q ≠ "." →
      melodyEventsAux (q :: List.replicate m "-") j none 0 = [⟨q, j, m + 1⟩] := by
    intro q m j hq1 hq2
    rw [melodyAux_pitch q hq1 hq2, melodyAux_replicate_end]
    have h1 : j + 1 - 1 = j := by omega
    have h2 : 1 + m = m + 1 := by omega
    rw [h1, h2]
    rfl
  refine ⟨?_, ?_, ?_, hgen1 p k i hp1 hp2, hgen2 p k i hp1 hp2⟩
  · have htok : tokenize ("C4 - - .") = ["C4", "-", "-", "."] := by decide
    have : (["C4", "-", "-", "."] : List String)
        = "C4" :: (List.replicate 2 "-" ++ ["."]) := by decide
    rw [htok, melodyEvents, this, hgen1 ("C4") 2 0 (by decide) (by decide)]
  · have hparse : parseNote ("C4") = .ok (.pitch 0 4) := by decide
    unfold noteToFreq
    rw [hparse]
    rfl
  · -- `pitchFreq (.pitch 0 4) = 440 * 2 ^ (-(3/4) : ℝ)`; bound `2 ^ (3/4)`
    -- between 1.6815 and 1.682 via fourth powers and conclude.
    have hexp : pitchFreq (.pitch 0 4) = 440 * (2 : ℝ) ^ (-(3 / 4) : ℝ) := by
      unfold pitchFreq
      norm_num
    have hxpos : (0 : ℝ) < (2 : ℝ) ^ ((3 / 4) : ℝ) :=
      Real.rpow_pos_of_pos (by norm_num) _
    have hx4 : ((2 : ℝ) ^ ((3 / 4) : ℝ)) ^ (4 : ℕ) = 8 := by
      rw [← Real.rpow_natCast ((2 : ℝ) ^ ((3 / 4) : ℝ)) 4,
        ← Real.rpow_mul (by norm_num : (0 : ℝ) ≤ 2)]
      rw [show ((3 / 4 : ℝ) * (4 : ℕ)) = ((3 : ℕ) : ℝ) by norm_num,
        Real.rpow_natCast]
      norm_num
    have hlb : (16815 / 10000 : ℝ) < (2 : ℝ) ^ ((3 / 4) : ℝ) := by
      apply lt_of_pow_lt_pow_left₀ 4 (le_of_lt hxpos)
      rw [hx4]
      norm_num
    have hub : (2 : ℝ) ^ ((3 / 4) : ℝ) < (1682 / 1000 : ℝ) := by
      apply lt_of_pow_lt_pow_left₀ 4 (by norm_num : (0 : ℝ) ≤ (1682 / 1000 : ℝ))
      rw [hx4]
      norm_num
    have hneg : (2 : ℝ) ^ (-(3 / 4) : ℝ) = ((2 : ℝ) ^ ((3 / 4) : ℝ))⁻¹ :=
      Real.rpow_neg (by norm_num) _
    rw [hexp, hneg, abs_le]
    have hinv : (2 : ℝ) ^ ((3 / 4) : ℝ) * ((2 : ℝ) ^ ((3 / 4) : ℝ))⁻¹ = 1 :=
      mul_inv_cancel₀ (ne_of_gt hxpos)
    have hinvpos : (0 : ℝ) < ((2 : ℝ) ^ ((3 / 4) : ℝ))⁻¹ := inv_pos.mpr hxpos
    constructor
    · nlinarith [hinv, hinvpos, hub]
    · nlinarith [hinv, hinvpos, hlb]

/-- Witness for C4 at the pitch token `E3`, one sustain, start slot 5. -/
theorem c4_melody_sustain_fold_witness :
    melodyEvents (tokenize ("C4 - - .")) = [⟨"C4", 0, 3⟩] ∧
    melodyEventsAux ("E3" :: (List.replicate 1 "-" ++ ["."])) 5 none 0
      = [⟨"E3", 5, 2⟩] ∧
    melodyEventsAux ("E3" :: List.replicate 1 "-") 5 none 0 = [⟨"E3", 5, 2⟩] :=
  have h := c4_melody_sustain_fold ("E3") 1 5 (by decide) (by decide)
  ⟨h.1, h.2.2.2.1, h.2.2.2.2⟩

/-- Claim C7: the 440 Hz fallback is reached only for tokens of length at
least 2 whose final character is a digit — `note_to_freq("H9")` falls back
to 440 Hz non-fatally and the fold keeps emitting the following notes, but
`note_to_freq` evaluates `note[-2]` (and `int(note[-1])`) before its
validity check, so the unrecognized one-character token `"X"` raises
`IndexError` and `"Hi"` raises `ValueError` instead of falling back: the
claim describes the code's own intended fallback path, which the early
indexing defeats. -/
theorem c7_pitch_fallback_crash :
    parseNote ("X") = .error "IndexError" ∧
    parseNote ("Hi") = .error "ValueError" ∧
    parseNote ("H9") = .ok .invalidFallback ∧
    noteToFreq ("H9") = .ok 440 ∧
    melodyEvents ["H9", "C4"] = [⟨"H9", 0, 1⟩, ⟨"C4", 1, 1⟩] := by
  refine ⟨by decide, by decide, by decide, ?_, by decide⟩
  unfold noteToFreq
  rw [show parseNote ("H9") = .ok .invalidFallback by decide]
  rfl

/-- Claim C6, counterexample to the claim as stated: removing the bar from
`"K B|. . S"` glues `B` and `.` into the single token `"B."`, so the result
is not the five tokens `K B . . S`. -/
theorem c6_tokenize_counterexample :
    tokenize ("K B|. . S") ≠ ["K", "B", ".", ".", "S"] := by decide

/-- Claim C6 (amended): the tokenizer removes all `'|'` characters and then
splits on whitespace; `"K B . . S"` yields exactly the five tokens
`K B . . S`; `"K B|. . S"` yields the four tokens `K B. . S`, since deleting
a bar character concatenates the adjacent non-whitespace symbols; the empty
notation yields the empty sequence, never an error. -/
theorem c6_tokenize_bar_removal :
    tokenize ("K B . . S") = ["K", "B", ".", ".", "S"] ∧
    tokenize ("K B|. . S") = ["K", "B.", ".", "S"] ∧
    tokenize ("") = [] := by
  refine ⟨by decide, by decide, by decide⟩

/-! ## Gain mapping (`Track.update_gain`)

`self.gain = (self.gain_dial.value() / 50) ** 2.4` with the dial clamped
to `[0, 100]`, and `db_gain = 20 * np.log10(self.gain)`. -/

/-- Source `(value / 50) ** 2.4`. -/
noncomputable def gainOfControl (v : ℕ) : ℝ := ((v : ℝ) / 50) ^ (2.4 : ℝ)

/-- Source `20 * np.log10(gain)`, the displayed dB value. -/
noncomputable def dbOfGain (g : ℝ) : ℝ := 20 * Real.logb 10 g

/-- Claim C5, counterexample to the claim as stated: the formula
`(control/50)^2.4` gives `2^2.4 > 4` at `control = 100`, not exactly `4.0`
(the source's own comment `# Range: 0 to 4` matches the claim, not the
code). -/
theorem c5_gain_counterexample : gainOfControl 100 ≠ 4 := by
  have h2 : gainOfControl 100 = (2 : ℝ) ^ (2.4 : ℝ) := by
    unfold gainOfControl
    norm_num
  have h4 : (4 : ℝ) = (2 : ℝ) ^ ((2 : ℕ) : ℝ) := by
    rw [Real.rpow_natCast]
    norm_num
  have hlt : (2 : ℝ) ^ ((2 : ℕ) : ℝ) < (2 : ℝ) ^ (2.4 : ℝ) := by
    apply Real.rpow_lt_rpow_left_iff (by norm_num : (1 : ℝ) < 2) |>.mpr
    norm_num
  rw [h2, h4]
  exact ne_of_gt hlt

/-- Claim C5 (amended): `gain = (control/50)^2.4` gives exactly `1.0` at
`control = 50` and exactly `0` at `control = 0`; at `control = 100` it gives
`2^2.4 ≈ 5.28` (strictly between 5.27 and 5.29), not `4.0`, and the
displayed dB value `20*log10(2^2.4) = 48*log10(2) ≈ 14.45` lies strictly
between 14.4 and 14.5, not `≈ 12.04`. -/
theorem c5_gain_mapping :
    gainOfControl 50 = 1 ∧
    gainOfControl 0 = 0 ∧
    gainOfControl 100 = (2 : ℝ) ^ (2.4 : ℝ) ∧
    527 / 100 < gainOfControl 100 ∧ gainOfControl 100 < 529 / 100 ∧
    72 / 5 < dbOfGain (gainOfControl 100) ∧ dbOfGain (gainOfControl 100) < 29 / 2 := by
  have h50 : gainOfControl 50 = 1 := by
    unfold gainOfControl
    norm_num
  have h0 : gainOfControl 0 = 0 := by
    unfold gainOfControl
    rw [Nat.cast_zero, zero_div]
    exact Real.zero_rpow (by norm_num)
  have h100 : gainOfControl 100 = (2 : ℝ) ^ (2.4 : ℝ) := by
    unfold gainOfControl
    norm_num
  have hxpos : (0 : ℝ) < (2 : ℝ) ^ (2.4 : ℝ) := Real.rpow_pos_of_pos (by norm_num) _
  have hx5 : ((2 : ℝ) ^ (2.4 : ℝ)) ^ (5 : ℕ) = 4096 := by
    rw [← Real.rpow_natCast ((2 : ℝ) ^ (2.4 : ℝ)) 5,
      ← Real.rpow_mul (by norm_num : (0 : ℝ) ≤ 2)]
    rw [show ((2.4 : ℝ) * (5 : ℕ)) = ((12 : ℕ) : ℝ) by norm_num,
      Real.rpow_natCast]
    norm_num
  have hlb : (527 / 100 : ℝ) < (2 : ℝ) ^ (2.4 : ℝ) := by
    apply lt_of_pow_lt_pow_left₀ 5 (le_of_lt hxpos)
    rw [hx5]
    norm_num
  have hub : (2 : ℝ) ^ (2.4 : ℝ) < (529 / 100 : ℝ) := by
    apply lt_of_pow_lt_pow_left₀ 5 (by norm_num : (0 : ℝ) ≤ (529 / 100 : ℝ))
    rw [hx5]
    norm_num
  have hlog2pos : (0 : ℝ) < Real.log 2 := Real.log_pos (by norm_num)
  have hlog10pos : (0 : ℝ) < Real.log 10 := Real.log_pos (by norm_num)
  have hdb : dbOfGain (gainOfControl 100) = 48 * Real.log 2 / Real.log 10 := by
    rw [h100]
    unfold dbOfGain
    unfold Real.logb
    rw [Real.log_rpow (by norm_num : (0 : ℝ) < 2)]
    ring
  have hlow : 72 * Real.log 10 < 240 * Real.log 2 := by
    have h240 : (240 : ℝ) * Real.log 2 = Real.log ((2 : ℝ) ^ (240 : ℕ)) := by
      rw [Real.log_pow]
      norm_num
    have h72 : (72 : ℝ) * Real.log 10 = Real.log ((10 : ℝ) ^ (72 : ℕ)) := by
      rw [Real.log_pow]
      norm_num
    rw [h240, h72]
    apply Real.log_lt_log (by positivity)
    norm_num
  have hhigh : 96 * Real.log 2 < 29 * Real.log 10 := by
    have h96 : (96 : ℝ) * Real.log 2 = Real.log ((2 : ℝ) ^ (96 : ℕ)) := by
      rw [Real.log_pow]
      norm_num
    have h29 : (29 : ℝ) * Real.log 10 = Real.log ((10 : ℝ) ^ (29 : ℕ)) := by
      rw [Real.log_pow]
      norm_num
    rw [h96, h29]
    apply Real.log_lt_log (by positivity)
    norm_num
  refine ⟨h50, h0, h100, by rw [h100]; exact hlb, by rw [h100]; exact hub, ?_, ?_⟩
  · rw [hdb, lt_div_iff₀ hlog10pos]
    linarith
  · rw [hdb, div_lt_iff₀ hlog10pos]
    linarith

end PaperDAW
